import Mathlib

/-!
Verification of the emissions CSV-to-graph loader (`bin/load_emissions.py`)
and the JSON replay tool (`bin/post_nodes_rels.py`).

The Python source is shallowly embedded: pure functions become Lean
functions, machine words are `Nat` with explicit reduction modulo `2 ^ 32`,
fallible paths return `Option`/`Except`, and the per-batch HTTP dispatch is
modelled as a map over the batches with an abstract outcome for each POST
(the thread pool only permutes the completion order, and the tallied counts
are order independent).
-/

/-! ## Python string primitives -/

/-- Python `str.strip()` whitespace test, restricted to the ASCII whitespace
characters (space, tab, LF, VT, FF, CR) that can occur in the CSV cells. -/
def pyIsSpace (c : Char) : Bool := c.toNat = 32 || (9 ≤ c.toNat && c.toNat ≤ 13)

/-- Python `str.strip()`: remove leading and trailing whitespace. -/
def pyStrip (s : String) : String :=
  ⟨((s.data.dropWhile pyIsSpace).reverse.dropWhile pyIsSpace).reverse⟩

/-- Python `str.zfill(width)`: left-pad with `'0'` up to `width`, keeping a
leading sign character in front of the padding. -/
def pyZfill (width : Nat) (s : String) : String :=
  if width ≤ s.data.length then s
  else
    match s.data with
    | c :: rest =>
      if c = '+' ∨ c = '-' then
        ⟨c :: (List.replicate (width - s.data.length) '0' ++ rest)⟩
      else
        ⟨List.replicate (width - s.data.length) '0' ++ s.data⟩
    | [] => ⟨List.replicate width '0'⟩

/-- Code-point lexicographic `<` on character lists: Python's `str` ordering. -/
def charsLt : List Char → List Char → Bool
  | [], [] => false
  | [], _ :: _ => true
  | _ :: _, [] => false
  | a :: as, b :: bs =>
    if a.toNat < b.toNat then true
    else if b.toNat < a.toNat then false
    else charsLt as bs

/-- Python string `<`. -/
def pyStrLt (a b : String) : Bool := charsLt a.data b.data

/-- Python string `<=`. -/
def pyStrLe (a b : String) : Bool := pyStrLt a b || a == b

/-! ## UTF-8 encoding

`hashlib.sha256(combined.encode('utf-8'))` hashes the UTF-8 bytes of the
combined string; we encode each scalar value by the standard UTF-8 scheme. -/

/-- UTF-8 encoding of one Unicode scalar value (as its code point). -/
def utf8EncodeChar (n : Nat) : List Nat :=
  if n < 128 then [n]
  else if n < 2048 then [192 + n / 64, 128 + n % 64]
  else if n < 65536 then [224 + n / 4096, 128 + n / 64 % 64, 128 + n % 64]
  else [240 + n / 262144, 128 + n / 4096 % 64, 128 + n / 64 % 64, 128 + n % 64]

/-- UTF-8 encoding of a string, as a list of byte values. -/
def utf8Encode (s : String) : List Nat := s.data.flatMap fun c => utf8EncodeChar c.toNat

/-! ## SHA-256 (model of `hashlib.sha256`)

32-bit words are `Nat`s reduced modulo `2 ^ 32` wherever an operation can
overflow. -/

/-- Reduce to a 32-bit word. -/
def w32 (n : Nat) : Nat := n % 4294967296

/-- Right rotation of a 32-bit word. -/
def rotr32 (r x : Nat) : Nat := w32 (x / 2 ^ r + x % 2 ^ r * 2 ^ (32 - r))

/-- Logical right shift. -/
def shr32 (r x : Nat) : Nat := x / 2 ^ r

/-- Bitwise complement of a 32-bit word (`2^32 - 1 - x` for `x < 2^32`). -/
def bnot32 (x : Nat) : Nat := 4294967295 - w32 x

/-- SHA-256 `Ch(x, y, z)`. -/
def shaCh (x y z : Nat) : Nat := Nat.xor (Nat.land x y) (Nat.land (bnot32 x) z)

/-- SHA-256 `Maj(x, y, z)`. -/
def shaMaj (x y z : Nat) : Nat :=
  Nat.xor (Nat.land x y) (Nat.xor (Nat.land x z) (Nat.land y z))

/-- SHA-256 `Σ₀`. -/
def shaS0 (x : Nat) : Nat := Nat.xor (rotr32 2 x) (Nat.xor (rotr32 13 x) (rotr32 22 x))

/-- SHA-256 `Σ₁`. -/
def shaS1 (x : Nat) : Nat := Nat.xor (rotr32 6 x) (Nat.xor (rotr32 11 x) (rotr32 25 x))

/-- SHA-256 `σ₀`. -/
def shas0 (x : Nat) : Nat := Nat.xor (rotr32 7 x) (Nat.xor (rotr32 18 x) (shr32 3 x))

/-- SHA-256 `σ₁`. -/
def shas1 (x : Nat) : Nat := Nat.xor (rotr32 17 x) (Nat.xor (rotr32 19 x) (shr32 10 x))

/-- The 64 SHA-256 round constants. -/
def shaK : List Nat :=
  [1116352408, 1899447441, 3049323471, 3921009573, 961987163, 1508970993,
   2453635748, 2870763221, 3624381080, 310598401, 607225278, 1426881987,
   1925078388, 2162078206, 2614888103, 3248222580, 3835390401, 4022224774,
   264347078, 604807628, 770255983, 1249150122, 1555081692, 1996064986,
   2554220882, 2821834349, 2952996808, 3210313671, 3336571891, 3584528711,
   113926993, 338241895, 666307205, 773529912, 1294757372, 1396182291,
   1695183700, 1986661051, 2177026350, 2456956037, 2730485921, 2820302411,
   3259730800, 3345764771, 3516065817, 3600352804, 4094571909, 275423344,
   430227734, 506948616, 659060556, 883997877, 958139571, 1322822218,
   1537002063, 1747873779, 1955562222, 2024104815, 2227730452, 2361852424,
   2428436474, 2756734187, 3204031479, 3329325298]

/-- Big-endian byte serialization of `n` into `numBytes` bytes. -/
def toBytesBE (numBytes n : Nat) : List Nat :=
  (List.range numBytes).map fun i => n / 2 ^ (8 * (numBytes - 1 - i)) % 256

/-- SHA-256 padding: append `0x80`, zero bytes up to 56 mod 64, and the
message bit length as 8 big-endian bytes. -/
def sha256pad (msg : List Nat) : List Nat :=
  msg ++ 128 :: List.replicate ((119 - msg.length % 64) % 64) 0 ++ toBytesBE 8 (msg.length * 8)

/-- Group bytes into big-endian 32-bit words. -/
def bytesToWords : List Nat → List Nat
  | b0 :: b1 :: b2 :: b3 :: rest =>
    (b0 * 16777216 + b1 * 65536 + b2 * 256 + b3) :: bytesToWords rest
  | _ => []

/-- Split a word list into blocks of 16 words (fuel-driven structural
recursion; fuel `ws.length` suffices since each step consumes ≥ 1 word). -/
def chunk16 : Nat → List Nat → List (List Nat)
  | 0, _ => []
  | _, [] => []
  | fuel + 1, l => l.take 16 :: chunk16 fuel (l.drop 16)

/-- The 16-word blocks of a padded message. -/
def sha256blocks (bytes : List Nat) : List (List Nat) :=
  let ws := bytesToWords bytes
  chunk16 ws.length ws

/-- Extend a 16-word block by one scheduled word. -/
def extendStep (acc : List Nat) : List Nat :=
  let n := acc.length
  acc ++ [w32 (shas1 (acc.getD (n - 2) 0) + acc.getD (n - 7) 0 +
               shas0 (acc.getD (n - 15) 0) + acc.getD (n - 16) 0)]

/-- Iterate the schedule extension. -/
def extendWAux : Nat → List Nat → List Nat
  | 0, acc => acc
  | fuel + 1, acc => extendWAux fuel (extendStep acc)

/-- The 64-entry message schedule of one block. -/
def extendW (block : List Nat) : List Nat := extendWAux 48 block

/-- The SHA-256 working state: eight 32-bit words. -/
structure SHAState where
  a : Nat
  b : Nat
  c : Nat
  d : Nat
  e : Nat
  f : Nat
  g : Nat
  h : Nat

/-- The SHA-256 initial hash value. -/
def shaInit : SHAState :=
  ⟨1779033703, 3144134277, 1013904242, 2773480762, 1359893119, 2600822924,
   528734635, 1541459225⟩

/-- One SHA-256 round, consuming a `(K, W)` pair. -/
def shaRound (st : SHAState) (kw : Nat × Nat) : SHAState :=
  let t1 := w32 (st.h + shaS1 st.e + shaCh st.e st.f st.g + kw.1 + kw.2)
  let t2 := w32 (shaS0 st.a + shaMaj st.a st.b st.c)
  ⟨w32 (t1 + t2), st.a, st.b, st.c, w32 (st.d + t1), st.e, st.f, st.g⟩

/-- The SHA-256 compression function for one block. -/
def compressBlock (st : SHAState) (block : List Nat) : SHAState :=
  let ws := extendW block
  let s := (shaK.zip ws).foldl shaRound st
  ⟨w32 (st.a + s.a), w32 (st.b + s.b), w32 (st.c + s.c), w32 (st.d + s.d),
   w32 (st.e + s.e), w32 (st.f + s.f), w32 (st.g + s.g), w32 (st.h + s.h)⟩

/-- SHA-256 digest of a byte list, as 32 bytes. -/
def sha256 (msg : List Nat) : List Nat :=
  let st := (sha256blocks (sha256pad msg)).foldl compressBlock shaInit
  toBytesBE 4 st.a ++ toBytesBE 4 st.b ++ toBytesBE 4 st.c ++ toBytesBE 4 st.d ++
  toBytesBE 4 st.e ++ toBytesBE 4 st.f ++ toBytesBE 4 st.g ++ toBytesBE 4 st.h

/-- Lowercase hexadecimal digit for a nibble (values ≥ 16 cannot arise from
digest bytes; the catch-all keeps the function total). -/
def nibbleChar (n : Nat) : Char :=
  match n with
  | 0 => '0' | 1 => '1' | 2 => '2' | 3 => '3' | 4 => '4' | 5 => '5'
  | 6 => '6' | 7 => '7' | 8 => '8' | 9 => '9' | 10 => 'a' | 11 => 'b'
  | 12 => 'c' | 13 => 'd' | 14 => 'e' | _ => 'f'

/-- Two lowercase hex characters of one byte. -/
def byteHex (b : Nat) : List Char := [nibbleChar (b / 16 % 16), nibbleChar (b % 16)]

/-- `hashlib`'s `hexdigest()`: lowercase hex characters of the digest bytes. -/
def hexdigest (bytes : List Nat) : List Char := bytes.flatMap byteHex

/-- `generate_external_id` (`load_emissions.py` lines 40-47): the first 24
hex characters of the SHA-256 digest of the UTF-8 encoding of
`"{key}_{emission_type}_{date}"`. -/
def generate_external_id (key emission_type date : String) : String :=
  ⟨(hexdigest (sha256 (utf8Encode (key ++ "_" ++ emission_type ++ "_" ++ date)))).take 24⟩

/-! ## Python `float()` (model)

Finite values are kept as exact decimal rationals (the claims only evaluate
it on decimally-exact inputs); `inf`/`nan` spellings are recognized.
PEP 515 digit underscores are not modelled. -/

/-- A Python float value. -/
inductive PyFloat where
  | finite (q : ℚ)
  | inf (neg : Bool)
  | nan
deriving DecidableEq

/-- ASCII decimal digit test. -/
def isDigitCh (c : Char) : Bool := 48 ≤ c.toNat && c.toNat ≤ 57

/-- Numeric value of a digit list. -/
def digitsVal (l : List Char) : Nat := l.foldl (fun a c => a * 10 + (c.toNat - 48)) 0

/-- ASCII lowercase conversion. -/
def toLowerCh (c : Char) : Char :=
  if 65 ≤ c.toNat ∧ c.toNat ≤ 90 then Char.ofNat (c.toNat + 32) else c

/-- Exponent digits (must be nonempty and all digits). -/
def expDigits (ds : List Char) : Option Int :=
  if ds ≠ [] ∧ ds.all isDigitCh then some (digitsVal ds) else none

/-- Optional exponent suffix: empty, or `e`/`E` with optional sign and digits. -/
def parseEpart : List Char → Option Int
  | [] => some 0
  | c :: rest =>
    if c = 'e' ∨ c = 'E' then
      match rest with
      | '+' :: ds => expDigits ds
      | '-' :: ds => (expDigits ds).map Int.neg
      | ds => expDigits ds
    else none

/-- The exact rational value `ipart.fp × 10 ^ e` (built with `mkRat` so
that it evaluates inside the kernel). -/
def decSci (ipart : Nat) (fp : List Char) (e : Int) : ℚ :=
  let num : Nat := ipart * 10 ^ fp.length + digitsVal fp
  match e with
  | .ofNat k => mkRat (Int.ofNat (num * 10 ^ k)) (10 ^ fp.length)
  | .negSucc k => mkRat (Int.ofNat num) (10 ^ fp.length * 10 ^ (k + 1))

/-- Unsigned decimal literal: `digits[.digits][exp]` or `.digits[exp]`. -/
def parseDec (l : List Char) : Option ℚ :=
  let ip := l.takeWhile isDigitCh
  let r1 := l.dropWhile isDigitCh
  match r1 with
  | '.' :: r2 =>
    let fp := r2.takeWhile isDigitCh
    let r3 := r2.dropWhile isDigitCh
    if ip.isEmpty && fp.isEmpty then none
    else (parseEpart r3).map fun e => decSci (digitsVal ip) fp e
  | _ =>
    if ip.isEmpty then none
    else (parseEpart r1).map fun e => decSci (digitsVal ip) [] e

/-- Python `float(s)`: `none` models a raised `ValueError`. -/
def pyFloat (s : String) : Option PyFloat :=
  let t := (pyStrip s).data
  let signed : Bool × List Char :=
    match t with
    | '+' :: r => (false, r)
    | '-' :: r => (true, r)
    | r => (false, r)
  let lower := signed.2.map toLowerCh
  if lower = "inf".data ∨ lower = "infinity".data then some (.inf signed.1)
  else if lower = "nan".data then some .nan
  else
    match parseDec signed.2 with
    | some q => some (.finite (if signed.1 then Rat.neg q else q))
    | none => none

/-! ## `create_date_string` (`load_emissions.py` lines 28-37)

The Python body applies `str(...)`, `.strip()`, `.zfill(2)` and an f-string
to string inputs; none of these operations can raise, so the `except`
branch (modelled by the `Except.error` case of the return type) is never
produced. -/

/-- `create_date_string`: ISO date string from year/month/day strings. -/
def create_date_string (year month day : String) : Except String String :=
  .ok (pyStrip year ++ "-" ++ pyZfill 2 (pyStrip month) ++ "-" ++ pyZfill 2 (pyStrip day))

/-! ## CSV ingestion (`read_csv_data`, `group_data_by_well`) -/

/-- One kept CSV row (`read_csv_data`'s dict). -/
structure RowRec where
  name : String
  well_key : String
  year : String
  month : String
  day : String
  row_data : List String
deriving DecidableEq

/-- `read_csv_data` (lines 200-227): drop the header row, skip rows with
fewer than 21 columns, and map the first five columns (stripped). -/
def read_csv_data (csv : List (List String)) : List RowRec :=
  match csv with
  | [] => []
  | _header :: rows =>
    (rows.filter fun r => 21 ≤ r.length).map fun r =>
      { name := pyStrip (r.getD 0 ""), well_key := pyStrip (r.getD 1 ""),
        year := pyStrip (r.getD 2 ""), month := pyStrip (r.getD 3 ""),
        day := pyStrip (r.getD 4 ""), row_data := r }

/-- Append a row to its well's group, or open a new group at the end
(Python `defaultdict` insertion order). -/
def groupUpd (acc : List (String × List RowRec)) (k : String) (r : RowRec) :
    List (String × List RowRec) :=
  match acc with
  | [] => [(k, [r])]
  | (k', rs) :: t => if k' = k then (k', rs ++ [r]) :: t else (k', rs) :: groupUpd t k r

/-- `group_data_by_well` (lines 230-237): group rows by well key, dropping
rows whose key is the empty string (Python truthiness test). -/
def group_data_by_well (data : List RowRec) : List (String × List RowRec) :=
  data.foldl (fun acc r => if r.well_key = "" then acc else groupUpd acc r.well_key r) []

/-- The fixed emission type list (line 305). -/
def emission_types : List String := ["Flaring", "ColdVentilation", "DieselFuel", "FuelGas"]

/-- Column quadruple of one emission type. -/
structure ColMap where
  volume : Nat
  volume_uom : Nat
  mass : Nat
  mass_uom : Nat
deriving DecidableEq

/-- `get_emission_type_columns` (lines 240-272); `none` models the empty
dict returned for an unknown type (whose use would raise `KeyError` and
skip the row). -/
def get_emission_type_columns (t : String) : Option ColMap :=
  if t = "Flaring" then some ⟨5, 6, 7, 8⟩
  else if t = "ColdVentilation" then some ⟨9, 10, 11, 12⟩
  else if t = "DieselFuel" then some ⟨13, 14, 15, 16⟩
  else if t = "FuelGas" then some ⟨17, 18, 19, 20⟩
  else none

/-! ## Property dictionaries and `convert_properties_to_array` -/

/-- A scalar property value. -/
inductive PVal where
  | str (s : String)
  | float (f : PyFloat)
deriving DecidableEq

/-- The metadata dict attached under `_<field>_metadata` keys. -/
structure PropMeta where
  units : String
  source : String
  assurance_level : Nat
  verified_time : String
deriving DecidableEq

/-- A value stored in a properties dict. -/
inductive DVal where
  | val (v : PVal)
  | meta (m : PropMeta)
deriving DecidableEq

/-- Association-list lookup (first match), modelling Python dict lookup
over an insertion-ordered association list. -/
def alookup {α β : Type} [DecidableEq α] : List (α × β) → α → Option β
  | [], _ => none
  | (k, v) :: t, k' => if k = k' then some v else alookup t k'

/-- Association-list assignment: update in place, or append a new key. -/
def aset {α β : Type} [DecidableEq α] : List (α × β) → α → β → List (α × β)
  | [], k, v => [(k, v)]
  | (k', v') :: t, k, v => if k' = k then (k', v) :: t else (k', v') :: aset t k v

/-- One element of the serialized properties array. -/
structure PropEntry where
  type : String
  value : DVal
  metadata : Option DVal
deriving DecidableEq

/-- The `_..._metadata` placeholder-key test of line 54. -/
def isMetaKey (k : String) : Bool :=
  k.data.take 1 = ['_'] && k.data.reverse.take 9 = "_metadata".data.reverse

/-- `convert_properties_to_array` (lines 50-67): skip metadata placeholder
keys and empty values, and attach `_<key>_metadata` when present. (The
pipeline never stores Python `None` in a properties dict, so only the
`!= ""` test is modelled.) -/
def convert_properties_to_array (props : List (String × DVal)) : List PropEntry :=
  props.foldl
    (fun acc kv =>
      if isMetaKey kv.1 then acc
      else if kv.2 = DVal.val (.str "") then acc
      else acc ++ [{ type := kv.1, value := kv.2,
                     metadata := alookup props ("_" ++ kv.1 ++ "_metadata") }])
    []

/-! ## Date entries (`process_emissions_data` lines 322-404) -/

/-- One surviving (well, type, date) reading entry. -/
structure Entry where
  well_key : String
  emission_type : String
  date : String
  properties : List (String × DVal)
deriving DecidableEq

/-- `row_data[i].strip() if len(row_data) > i else None`. -/
def cellOpt (row_data : List String) (i : Nat) : Option String :=
  if i < row_data.length then some (pyStrip (row_data.getD i "")) else none

/-- The parsed numeric value of a volume/mass cell: `None` when the cell is
missing or empty, `None` with a warning when `float()` raises. -/
def fieldValue (row_data : List String) (i : Nat) : Option PyFloat :=
  match cellOpt row_data i with
  | some s => if s = "" then none else pyFloat s
  | none => none

/-- The metadata dict built for a unit-of-measure string (lines 375-382). -/
def metaFor (sn vt uom : String) : DVal :=
  .meta { units := uom, source := sn, assurance_level := 3, verified_time := vt }

/-- The per-(well, type, row) entry construction (lines 339-404): build the
ISO date, parse volume and mass, keep the entry only if at least one of
them is non-null, and assemble the properties dict in insertion order.
`sn` is the spreadsheet base name, `vt` the wall-clock `verified_time`. -/
def makeDateEntry (sn vt wk ty : String) (cm : ColMap) (row : RowRec) : Option Entry :=
  match create_date_string row.year row.month row.day with
  | .error _ => none
  | .ok date_str =>
    let rd := row.row_data
    let volume := fieldValue rd cm.volume
    let volume_uom := cellOpt rd cm.volume_uom
    let mass := fieldValue rd cm.mass
    let mass_uom := cellOpt rd cm.mass_uom
    if volume ≠ none ∨ mass ≠ none then
      let props1 : List (String × DVal) := [("date", .val (.str date_str))]
      let props2 :=
        match volume with
        | some v =>
          props1 ++ [("volume", .val (.float v))] ++
            (match volume_uom with
             | some u => if u ≠ "" then [("_volume_metadata", metaFor sn vt u)] else []
             | none => [])
        | none => props1
      let props3 :=
        match mass with
        | some m =>
          props2 ++ [("mass", .val (.float m))] ++
            (match mass_uom with
             | some u => if u ≠ "" then [("_mass_metadata", metaFor sn vt u)] else []
             | none => [])
        | none => props2
      some { well_key := wk, emission_type := ty, date := date_str, properties := props3 }
    else none

/-- All surviving date entries, in the source's collection order
(wells, then the four types, then rows). -/
def dateEntries (sn vt : String) (wells : List (String × List RowRec)) : List Entry :=
  wells.flatMap fun w =>
    emission_types.flatMap fun ty =>
      match get_emission_type_columns ty with
      | some cm => w.2.filterMap (makeDateEntry sn vt w.1 ty cm)
      | none => []

/-! ## The reverse-chronological sort (line 408)

Python's `list.sort(key=..., reverse=True)` is the stable descending sort
by the `(well_key, emission_type, date)` string triple; any stable sort
computes the same list, so we use insertion sort with the relation
"`a` may precede `b` iff `key b ≤ key a`" (ties keep original order). -/

/-- Python string `<` as a proposition. -/
def pyLt (a b : String) : Prop := pyStrLt a b = true

instance (a b : String) : Decidable (pyLt a b) := instDecidableEqBool _ _

/-- Python tuple `≤` on the sort key. -/
def tripleLe (x y : String × String × String) : Prop :=
  pyLt x.1 y.1 ∨ x.1 = y.1 ∧
    (pyLt x.2.1 y.2.1 ∨ x.2.1 = y.2.1 ∧ (pyLt x.2.2 y.2.2 ∨ x.2.2 = y.2.2))

instance (x y : String × String × String) : Decidable (tripleLe x y) := by
  unfold tripleLe; infer_instance

/-- The sort key of an entry. -/
def entryKey (e : Entry) : String × String × String :=
  (e.well_key, e.emission_type, e.date)

/-- `a` may precede `b` in the descending sort. -/
def entryDescLe (a b : Entry) : Prop := tripleLe (entryKey b) (entryKey a)

instance : DecidableRel entryDescLe := fun a b => by
  unfold entryDescLe; infer_instance

/-- The sorted date entries (most recent first within each well/type). -/
def sortEntries (es : List Entry) : List Entry := List.insertionSort entryDescLe es

/-! ## Node and relationship records -/

/-- A capture-API node. -/
structure Node where
  external_id : String
  type : String
  labels : List String
  properties : List PropEntry
deriving DecidableEq

/-- A capture-API relationship. -/
structure GraphRel where
  source_type : String
  source_id : String
  target_type : String
  target_id : String
  type : String
deriving DecidableEq

/-- The Emissions-node identity of a well (line 327). -/
def emissionsId (wk : String) : String := generate_external_id wk "emissions" ""

/-- The EmissionType-node identity of a (well, type) (line 333). -/
def emissionTypeId (wk ty : String) : String :=
  generate_external_id wk ("emission_type_" ++ ty) ""

/-- The Reading-node identity of an entry (lines 441, 497). -/
def entryId (e : Entry) : String :=
  generate_external_id e.well_key e.emission_type e.date

/-- `well_rows[0]['name'] if well_rows else well_key`. -/
def wellName (wk : String) (rows : List RowRec) : String :=
  match rows with
  | [] => wk
  | r :: _ => r.name

/-- The `emission_type_ids` dict (lines 331-335), keyed by (well, type), as
an insertion-ordered association list. -/
def emissionTypeIdsOf (wells : List (String × List RowRec)) :
    List ((String × String) × String) :=
  wells.flatMap fun w => emission_types.map fun ty => ((w.1, ty), emissionTypeId w.1 ty)

/-- Well nodes (lines 414-419): the external id is the raw well key. -/
def wellNodes (wells : List (String × List RowRec)) : List Node :=
  wells.map fun w =>
    { external_id := w.1, type := "Well", labels := [],
      properties := convert_properties_to_array [("name", .val (.str (wellName w.1 w.2)))] }

/-- Emissions nodes (lines 422-427). -/
def emissionsNodes (wells : List (String × List RowRec)) : List Node :=
  wells.map fun w =>
    { external_id := emissionsId w.1, type := "Emissions", labels := [],
      properties := convert_properties_to_array [("name", .val (.str "Emissions"))] }

/-- EmissionType nodes (lines 430-437). -/
def typeNodes (wells : List (String × List RowRec)) : List Node :=
  (emissionTypeIdsOf wells).map fun p =>
    { external_id := p.2, type := "EmissionType", labels := [],
      properties := convert_properties_to_array [("name", .val (.str p.1.2))] }

/-- Reading nodes (lines 440-447): typed by the emission type, tagged with
the `Emission` label. -/
def readingNodes (es : List Entry) : List Node :=
  es.map fun e =>
    { external_id := entryId e, type := e.emission_type, labels := ["Emission"],
      properties := convert_properties_to_array e.properties }

/-- The grouped wells of a CSV document. -/
def pipelineWells (csv : List (List String)) : List (String × List RowRec) :=
  group_data_by_well (read_csv_data csv)

/-- The sorted surviving entries of a CSV document. -/
def sortedEntriesOf (sn vt : String) (csv : List (List String)) : List Entry :=
  sortEntries (dateEntries sn vt (pipelineWells csv))

/-- The full node list of `process_emissions_data` (lines 410-447). -/
def buildNodes (sn vt : String) (csv : List (List String)) : List Node :=
  wellNodes (pipelineWells csv) ++ emissionsNodes (pipelineWells csv) ++
    typeNodes (pipelineWells csv) ++ readingNodes (sortedEntriesOf sn vt csv)

/-- Well → Emissions relationships (lines 465-476). -/
def hasEmissionsRels (wells : List (String × List RowRec)) : List GraphRel :=
  wells.map fun w => ⟨"Well", w.1, "Emissions", emissionsId w.1, "HAS_EMISSIONS"⟩

/-- Emissions → EmissionType relationships (lines 479-490). -/
def hasTypeRels (wells : List (String × List RowRec)) : List GraphRel :=
  (emissionTypeIdsOf wells).map fun p =>
    ⟨"Emissions", emissionsId p.1.1, "EmissionType", p.2, "HAS_TYPE"⟩

/-- The `current_groups` fold of lines 494-530: the first entry of each
(well, type) key links from its EmissionType via `HAS_DATA`, every later
entry links from the previous entry of that key via `NEXT_DATE`. The
`getD ""` default on the `emission_type_ids` lookup is unreachable for
pipeline inputs (`alookup_emissionTypeIdsOf` below). -/
def chainRels (ets cg : List ((String × String) × String)) : List Entry → List GraphRel
  | [] => []
  | e :: rest =>
    match alookup cg (e.well_key, e.emission_type) with
    | none =>
      ⟨"EmissionType", (alookup ets (e.well_key, e.emission_type)).getD "",
       e.emission_type, entryId e, "HAS_DATA"⟩ ::
        chainRels ets (aset cg (e.well_key, e.emission_type) (entryId e)) rest
    | some prev =>
      ⟨e.emission_type, prev, e.emission_type, entryId e, "NEXT_DATE"⟩ ::
        chainRels ets (aset cg (e.well_key, e.emission_type) (entryId e)) rest

/-- `chainRels`, with each emitted relationship annotated by the
(well, type) key of the entry that produced it. -/
def chainRelsAnn (ets cg : List ((String × String) × String)) :
    List Entry → List ((String × String) × GraphRel)
  | [] => []
  | e :: rest =>
    match alookup cg (e.well_key, e.emission_type) with
    | none =>
      ((e.well_key, e.emission_type),
       ⟨"EmissionType", (alookup ets (e.well_key, e.emission_type)).getD "",
        e.emission_type, entryId e, "HAS_DATA"⟩) ::
        chainRelsAnn ets (aset cg (e.well_key, e.emission_type) (entryId e)) rest
    | some prev =>
      ((e.well_key, e.emission_type),
       ⟨e.emission_type, prev, e.emission_type, entryId e, "NEXT_DATE"⟩) ::
        chainRelsAnn ets (aset cg (e.well_key, e.emission_type) (entryId e)) rest

/-- The full relationship list of `process_emissions_data` (lines 461-530). -/
def buildRels (sn vt : String) (csv : List (List String)) : List GraphRel :=
  hasEmissionsRels (pipelineWells csv) ++ hasTypeRels (pipelineWells csv) ++
    chainRels (emissionTypeIdsOf (pipelineWells csv)) [] (sortedEntriesOf sn vt csv)

/-! ## Batch dispatch (`process_batch` lines 184-197, rounds lines 544-630)

A round submits every chunk to the HTTP sink; the thread pool only permutes
the order in which results are tallied, and the tallied counts are
permutation invariant, so a round is modelled as a map over the chunks with
an abstract `HttpOutcome` for each POST. -/

/-- The JSON values handled by the tools. -/
inductive PyJson where
  | null
  | bool (b : Bool)
  | num (q : ℚ)
  | str (s : String)
  | arr (l : List PyJson)
  | obj (kvs : List (String × PyJson))

/-- What one `requests.post` call produced: a raised transport exception,
or a response with a status code and (when decodable) a JSON body. -/
inductive HttpOutcome where
  | transportError (msg : String)
  | response (status : Nat) (body : Option PyJson)

/-- `create_nodes_batch` / `create_relationships_batch` (lines 70-177),
non-debug path: `raise_for_status()` raises exactly for status 400-599,
then `response.json()` raises when the body is not decodable; every raise
is re-raised to the caller after logging. -/
def create_batch_result (out : HttpOutcome) : Except String PyJson :=
  match out with
  | .transportError m => .error m
  | .response s b =>
    if 400 ≤ s ∧ s ≤ 599 then .error "HTTPError"
    else
      match b with
      | some j => .ok j
      | none => .error "JSONDecodeError"

/-- `process_batch` (lines 184-197): catch any sink exception and report
`(batch_num, success, message)` instead of propagating it. -/
def process_batch {α : Type} (batch_num _total_batches : Nat) (_batch : α)
    (out : HttpOutcome) : Nat × Bool × String :=
  match create_batch_result out with
  | .ok _ => (batch_num, true, "completed")
  | .error e => (batch_num, false, "Error creating batch: " ++ e)

/-- One dispatch round (lines 551-586 and 595-630): submit every chunk,
collect its `process_batch` result. `sink i b` is the HTTP outcome of
POSTing chunk `b` (1-based index `i`). -/
def dispatchRound {α : Type} (batches : List α) (sink : Nat → α → HttpOutcome) :
    List (Nat × Bool × String) :=
  ((List.range batches.length).zip batches).map fun p =>
    process_batch (p.1 + 1) batches.length p.2 (sink (p.1 + 1) p.2)

/-- The `completed` tally of a round. -/
def completedCount (results : List (Nat × Bool × String)) : Nat :=
  results.countP fun r => r.2.1

/-- The `failed` tally of a round. -/
def failedCount (results : List (Nat × Bool × String)) : Nat :=
  results.countP fun r => !r.2.1

/-- The observable success criterion of one chunk submission, read off
`create_batch_result`: a response with a decodable body and status outside
400-599. -/
def outcomeSucceeds : HttpOutcome → Bool
  | .response s (some _) => if 400 ≤ s ∧ s ≤ 599 then false else true
  | _ => false

/-- The spec's "2xx" status test (used to state C6). -/
def statusIs2xx (s : Nat) : Bool := decide (200 ≤ s) && decide (s ≤ 299)

/-! ## Replay tool (`post_nodes_rels.py`) -/

/-- Python `"k" in dict`. -/
def hasKey (kvs : List (String × PyJson)) (k : String) : Bool := (alookup kvs k).isSome

/-- The two payload classifications. -/
inductive DetectedType where
  | nodes
  | relationships
deriving DecidableEq

/-- `detect_type` (lines 151-172): dicts are checked for a `nodes` list or
`external_id`+`type` keys; nonempty arrays are classified by their FIRST
element only. -/
def detect_type : PyJson → Option DetectedType
  | .obj kvs =>
    if (match alookup kvs "nodes" with | some (.arr _) => true | _ => false) then
      some .nodes
    else if hasKey kvs "external_id" && hasKey kvs "type" then some .nodes
    else none
  | .arr (first :: _) =>
    match first with
    | .obj k1 =>
      if hasKey k1 "external_id" && hasKey k1 "type" && hasKey k1 "properties" then
        some .nodes
      else if hasKey k1 "source" && hasKey k1 "target" && hasKey k1 "type" then
        some .relationships
      else none
    | _ => none
  | _ => none

/-- Python truthiness of a JSON value. -/
def pyTruthy : PyJson → Bool
  | .null => false
  | .bool b => b
  | .num q => decide (q ≠ 0)
  | .str s => decide (s ≠ "")
  | .arr l => !l.isEmpty
  | .obj kvs => !kvs.isEmpty

mutual

/-- Structural size of a JSON value (fuel bound for the unwrap loop). -/
def jsonSize : PyJson → Nat
  | .null => 1
  | .bool _ => 1
  | .num _ => 1
  | .str _ => 1
  | .arr l => 1 + jsonListSize l
  | .obj kvs => 1 + jsonKVSize kvs

/-- Structural size of a JSON array's elements. -/
def jsonListSize : List PyJson → Nat
  | [] => 0
  | j :: t => jsonSize j + jsonListSize t

/-- Structural size of a JSON object's values. -/
def jsonKVSize : List (String × PyJson) → Nat
  | [] => 0
  | kv :: t => jsonSize kv.2 + jsonKVSize t

end

/-- The `while isinstance(items, dict) and "nodes" in items` unwrap loop
(lines 233-234); `jsonSize` fuel strictly bounds the possible iterations. -/
def unwrapNodes : Nat → PyJson → PyJson
  | 0, j => j
  | fuel + 1, j =>
    match j with
    | .obj kvs =>
      match alookup kvs "nodes" with
      | some v => unwrapNodes fuel v
      | none => j
    | _ => j

/-- What `main` (lines 219-270) does after the file is read: exit 1, or
post a payload to one of the two endpoints. -/
inductive ReplayAction where
  | exitWith (code : Nat)
  | postNodes (items : List PyJson)
  | postRels (payload : PyJson)

/-- `main` from the classification step on (lines 219-270): with no
explicit `--type`, an unclassifiable document exits with code 1 before any
POST; nodes payloads are unwrapped (and wrapped into a list by
truthiness when still not a list) and posted; relationship payloads are
posted as-is. -/
def mainDispatch (explicit : Option DetectedType) (data : PyJson) : ReplayAction :=
  match (match explicit with | some t => some t | none => detect_type data) with
  | none => .exitWith 1
  | some .nodes =>
    let items := unwrapNodes (jsonSize data) data
    match items with
    | .arr l => .postNodes l
    | j => if pyTruthy j then .postNodes [j] else .postNodes []
  | some .relationships => .postRels data

/-! ### The C4 claim's document shapes, written from the spec's words
(to be compared against `detect_type`). -/

/-- A dict with all the listed keys. -/
def isObjWithKeys (ks : List String) : PyJson → Bool
  | .obj kvs => ks.all (hasKey kvs)
  | _ => false

/-- Spec shape: "a JSON array of dicts each having source, target and
type". -/
def claimRelArrayShape : PyJson → Bool
  | .arr l => l.all (isObjWithKeys ["source", "target", "type"])
  | _ => false

/-- Spec shape: "a dict containing a nodes list". -/
def claimNodesListShape : PyJson → Bool
  | .obj kvs => match alookup kvs "nodes" with | some (.arr _) => true | _ => false
  | _ => false

/-- Spec shape: "a dict with external_id and type". -/
def claimNodeDictShape : PyJson → Bool := isObjWithKeys ["external_id", "type"]

/-- Spec shape: "a list of dicts each having external_id, type and
properties". -/
def claimNodeArrayShape : PyJson → Bool
  | .arr l => l.all (isObjWithKeys ["external_id", "type", "properties"])
  | _ => false

/-! ## Observers and concrete inputs used by the theorems below -/

/-- Lowercase hexadecimal character test. -/
def isLowerHexChar (c : Char) : Bool := "0123456789abcdef".data.contains c

/-- The parsed volume stored in an entry's properties, if any. -/
def entryVolume (e : Entry) : Option PyFloat :=
  match alookup e.properties "volume" with
  | some (.val (.float f)) => some f
  | _ => none

/-- The parsed mass stored in an entry's properties, if any. -/
def entryMass (e : Entry) : Option PyFloat :=
  match alookup e.properties "mass" with
  | some (.val (.float f)) => some f
  | _ => none

/-- The surviving entries of one (well, type) group, in chain order. -/
def groupEntries (sn vt : String) (csv : List (List String)) (wk ty : String) :
    List Entry :=
  (sortedEntriesOf sn vt csv).filter fun e => (e.well_key, e.emission_type) == (wk, ty)

/-- The chain relationships emitted for one (well, type) group: the
`chainRels` output restricted to the relationships produced by that
group's entries. -/
def groupChainRels (sn vt : String) (csv : List (List String)) (wk ty : String) :
    List GraphRel :=
  ((chainRelsAnn (emissionTypeIdsOf (pipelineWells csv)) []
      (sortedEntriesOf sn vt csv)).filter fun p => p.1 == (wk, ty)).map Prod.snd

/-- The `NEXT_DATE` chain along consecutive entries of a group. -/
def nextDateChain : Entry → List Entry → List GraphRel
  | _, [] => []
  | prev, e :: t =>
    ⟨e.emission_type, entryId prev, e.emission_type, entryId e, "NEXT_DATE"⟩ ::
      nextDateChain e t

/-- What the `current_groups` fold emits for the entries of one key, as a
function of the key's lookup state. -/
def chainKRels (etId : String) : Option String → List Entry → List GraphRel
  | _, [] => []
  | none, e :: rest =>
    ⟨"EmissionType", etId, e.emission_type, entryId e, "HAS_DATA"⟩ ::
      chainKRels etId (some (entryId e)) rest
  | some prev, e :: rest =>
    ⟨e.emission_type, prev, e.emission_type, entryId e, "NEXT_DATE"⟩ ::
      chainKRels etId (some (entryId e)) rest

/-- A 21-column header row. -/
def hdrRow : List String := List.replicate 21 "h"

/-- The spec's end-to-end test row, exactly as written: it has only 20
columns. -/
def specRow20 : List String :=
  ["WellA", "W1", "2024", "3", "15", "100", "bbl", "", "", "", "", "", "", "",
   "", "", "50", "scf", "", ""]

/-- The spec's test row padded with one empty column to the required 21. -/
def specRow21 : List String := specRow20 ++ [""]

/-- A 21-column row with a Flaring volume reading for well `W1` on
2024-03-15. -/
def dupRow : List String :=
  ["WellA", "W1", "2024", "3", "15", "100", "bbl", "", "", "", "", "", "", "",
   "", "", "", "", "", "", ""]

/-- A CSV whose two data rows are identical: two surviving Flaring entries
with the same date. -/
def dupCsv : List (List String) := [hdrRow, dupRow, dupRow]

/-- Same well, Flaring volume on 2024-03-16. -/
def laterRow : List String :=
  ["WellA", "W1", "2024", "3", "16", "110", "bbl", "", "", "", "", "", "", "",
   "", "", "", "", "", "", ""]

/-- A CSV with two Flaring readings on distinct dates for well `W1`. -/
def twoDateCsv : List (List String) := [hdrRow, dupRow, laterRow]

/-- A row whose Flaring volume cell is unparsable and whose Flaring mass
cell parses. -/
def rowC7 : RowRec :=
  { name := "WellA", well_key := "W1", year := "2024", month := "3", day := "15",
    row_data := ["WellA", "W1", "2024", "3", "15", "abc", "bbl", "50", "kg", "",
                 "", "", "", "", "", "", "", "", "", "", ""] }

/-- A relationships-shaped dict. -/
def objRel : List (String × PyJson) :=
  [("source", .str "s"), ("target", .str "t"), ("type", .str "T")]

/-- A node-shaped dict. -/
def objNode : List (String × PyJson) :=
  [("external_id", .str "e"), ("type", .str "T"), ("properties", .arr [])]

/-- A JSON array whose first element is relationship-shaped but whose
second element has none of the classified shapes. -/
def docC4 : PyJson := .arr [.obj objRel, .obj []]

/-- A sink whose second chunk submission raises a transport error. -/
def sinkW : Nat → List Node → HttpOutcome := fun n _ =>
  if n = 2 then .transportError "boom" else .response 200 (some .null)

/-- The Well node of the padded spec row's CSV. -/
def nodeW1 : Node :=
  { external_id := "W1", type := "Well", labels := [],
    properties := [⟨"name", .val (.str "WellA"), none⟩] }

/-! # Theorems -/

/-- SHA-256 validation against the NIST test vector for the empty message. -/
theorem sha256_nist_empty :
    hexdigest (sha256 (utf8Encode "")) =
      "e3b0c44298fc1c149afbf4c8996fb92427ae41e4649b934ca495991b7852b855".data := by
  decide

/-- SHA-256 validation against the NIST test vector for `"abc"`. -/
theorem sha256_nist_abc :
    hexdigest (sha256 (utf8Encode "abc")) =
      "ba7816bf8f01cfea414140de5dae2223b00361a396177a9cb410ff61f20015ad".data := by
  decide

/-! ## Order lemmas for the sort relation -/

theorem char_toNat_inj {a b : Char} (h : a.toNat = b.toNat) : a = b :=
  (StrictMono.injective (fun _ _ hl => hl) : Function.Injective Char.toNat) h

theorem string_data_inj {a b : String} (h : a.data = b.data) : a = b := by
  cases a; cases b; exact congrArg String.mk h

theorem charsLt_self (l : List Char) : charsLt l l = false := by
  induction l with
  | nil => rfl
  | cons a t ih => simp [charsLt, ih]

theorem charsLt_asymm : ∀ {l m : List Char}, charsLt l m = true → charsLt m l = false := by
  intro l
  induction l with
  | nil =>
    intro m h
    cases m with
    | nil => simp [charsLt] at h
    | cons b bs => simp [charsLt]
  | cons a as ih =>
    intro m h
    cases m with
    | nil => simp [charsLt] at h
    | cons b bs =>
      simp only [charsLt] at h ⊢
      rcases Nat.lt_trichotomy a.toNat b.toNat with hlt | heq | hgt
      · rw [if_neg (Nat.lt_asymm hlt), if_pos hlt]
      · rw [if_neg (by omega), if_neg (by omega)]
        rw [if_neg (by omega), if_neg (by omega)] at h
        exact ih h
      · rw [if_neg (by omega), if_pos hgt] at h
        simp at h

theorem charsLt_trans : ∀ {l m n : List Char},
    charsLt l m = true → charsLt m n = true → charsLt l n = true := by
  intro l
  induction l with
  | nil =>
    intro m n h1 h2
    cases m with
    | nil => simp [charsLt] at h1
    | cons b bs =>
      cases n with
      | nil => simp [charsLt] at h2
      | cons c cs => simp [charsLt]
  | cons a as ih =>
    intro m n h1 h2
    cases m with
    | nil => simp [charsLt] at h1
    | cons b bs =>
      cases n with
      | nil => simp [charsLt] at h2
      | cons c cs =>
        simp only [charsLt] at h1 h2 ⊢
        rcases Nat.lt_trichotomy a.toNat b.toNat with hab | hab | hab
        · rcases Nat.lt_trichotomy b.toNat c.toNat with hbc | hbc | hbc
          · rw [if_pos (Nat.lt_trans hab hbc)]
          · rw [if_pos (by omega)]
          · rw [if_neg (by omega), if_pos hbc] at h2
            simp at h2
        · rcases Nat.lt_trichotomy b.toNat c.toNat with hbc | hbc | hbc
          · rw [if_pos (by omega)]
          · rw [if_neg (by omega), if_neg (by omega)]
            rw [if_neg (by omega), if_neg (by omega)] at h1
            rw [if_neg (by omega), if_neg (by omega)] at h2
            exact ih h1 h2
          · rw [if_neg (by omega), if_pos hbc] at h2
            simp at h2
        · rw [if_neg (by omega), if_pos hab] at h1
          simp at h1

theorem charsLt_connex : ∀ {l m : List Char},
    charsLt l m = false → charsLt m l = false → l = m := by
  intro l
  induction l with
  | nil =>
    intro m h1 _
    cases m with
    | nil => rfl
    | cons b bs => simp [charsLt] at h1
  | cons a as ih =>
    intro m h1 h2
    cases m with
    | nil => simp [charsLt] at h2
    | cons b bs =>
      simp only [charsLt] at h1 h2
      rcases Nat.lt_trichotomy a.toNat b.toNat with hab | hab | hab
      · rw [if_pos hab] at h1; simp at h1
      · rw [if_neg (by omega), if_neg (by omega)] at h1
        rw [if_neg (by omega), if_neg (by omega)] at h2
        rw [char_toNat_inj hab, ih h1 h2]
      · rw [if_pos hab] at h2; simp at h2

theorem pyLt_self (a : String) : ¬pyLt a a := by
  simp [pyLt, pyStrLt, charsLt_self]

theorem pyLt_asymm {a b : String} (h : pyLt a b) : ¬pyLt b a := by
  simp only [pyLt, pyStrLt] at h ⊢
  simp [charsLt_asymm h]

theorem pyLt_trans {a b c : String} (h1 : pyLt a b) (h2 : pyLt b c) : pyLt a c :=
  charsLt_trans h1 h2

theorem pyLt_trichotomy (a b : String) : pyLt a b ∨ a = b ∨ pyLt b a := by
  simp only [pyLt, pyStrLt]
  rcases h1 : charsLt a.data b.data with _ | _
  · rcases h2 : charsLt b.data a.data with _ | _
    · exact Or.inr (Or.inl (string_data_inj (charsLt_connex h1 h2)))
    · exact Or.inr (Or.inr rfl)
  · exact Or.inl rfl

theorem tripleLe_total (x y : String × String × String) : tripleLe x y ∨ tripleLe y x := by
  unfold tripleLe
  rcases pyLt_trichotomy x.1 y.1 with h | h | h
  · exact Or.inl (Or.inl h)
  · rcases pyLt_trichotomy x.2.1 y.2.1 with h2 | h2 | h2
    · exact Or.inl (Or.inr ⟨h, Or.inl h2⟩)
    · rcases pyLt_trichotomy x.2.2 y.2.2 with h3 | h3 | h3
      · exact Or.inl (Or.inr ⟨h, Or.inr ⟨h2, Or.inl h3⟩⟩)
      · exact Or.inl (Or.inr ⟨h, Or.inr ⟨h2, Or.inr h3⟩⟩)
      · exact Or.inr (Or.inr ⟨h.symm, Or.inr ⟨h2.symm, Or.inl h3⟩⟩)
    · exact Or.inr (Or.inr ⟨h.symm, Or.inl h2⟩)
  · exact Or.inr (Or.inl h)

theorem tripleLe_trans {x y z : String × String × String}
    (h1 : tripleLe x y) (h2 : tripleLe y z) : tripleLe x z := by
  unfold tripleLe at h1 h2 ⊢
  rcases h1 with h1 | ⟨e1, h1⟩
  · rcases h2 with h2 | ⟨e2, h2⟩
    · exact Or.inl (pyLt_trans h1 h2)
    · exact Or.inl (e2 ▸ h1)
  · rcases h2 with h2 | ⟨e2, h2⟩
    · exact Or.inl (e1 ▸ h2)
    · refine Or.inr ⟨e1.trans e2, ?_⟩
      rcases h1 with h1 | ⟨f1, h1⟩
      · rcases h2 with h2 | ⟨f2, h2⟩
        · exact Or.inl (pyLt_trans h1 h2)
        · exact Or.inl (f2 ▸ h1)
      · rcases h2 with h2 | ⟨f2, h2⟩
        · exact Or.inl (f1 ▸ h2)
        · refine Or.inr ⟨f1.trans f2, ?_⟩
          rcases h1 with h1 | h1
          · rcases h2 with h2 | h2
            · exact Or.inl (pyLt_trans h1 h2)
            · exact Or.inl (h2 ▸ h1)
          · rcases h2 with h2 | h2
            · exact Or.inl (h1 ▸ h2)
            · exact Or.inr (h1.trans h2)

instance : IsTotal Entry entryDescLe :=
  ⟨fun a b => by
    unfold entryDescLe
    exact (tripleLe_total (entryKey a) (entryKey b)).symm⟩

instance : IsTrans Entry entryDescLe :=
  ⟨fun _ _ _ hab hbc => tripleLe_trans hbc hab⟩

theorem sortEntries_sorted (es : List Entry) :
    List.Sorted entryDescLe (sortEntries es) :=
  List.sorted_insertionSort entryDescLe es

theorem sortEntries_perm (es : List Entry) : (sortEntries es).Perm es :=
  List.perm_insertionSort entryDescLe es

/-! ## C1: identity derivation -/

theorem toBytesBE_length (numBytes n : Nat) : (toBytesBE numBytes n).length = numBytes := by
  simp [toBytesBE]

theorem sha256_length (msg : List Nat) : (sha256 msg).length = 32 := by
  simp [sha256, toBytesBE_length]

theorem hexdigest_length (l : List Nat) : (hexdigest l).length = 2 * l.length := by
  induction l with
  | nil => rfl
  | cons b t ih =>
    simp only [hexdigest, List.flatMap_cons] at ih ⊢
    simp [byteHex, List.length_append, ih]
    omega

theorem nibbleChar_hex (n : Nat) : isLowerHexChar (nibbleChar n) = true := by
  unfold nibbleChar
  split <;> decide

theorem hexdigest_hex (l : List Nat) : ∀ c ∈ hexdigest l, isLowerHexChar c = true := by
  induction l with
  | nil => intro c hc; simp [hexdigest] at hc
  | cons b t ih =>
    intro c hc
    simp only [hexdigest, List.flatMap_cons, List.mem_append] at hc
    rcases hc with hc | hc
    · simp only [byteHex, List.mem_cons, List.not_mem_nil, or_false] at hc
      rcases hc with h | h
      · exact h ▸ nibbleChar_hex _
      · exact h ▸ nibbleChar_hex _
    · exact ih c hc

theorem generate_external_id_length (k c d : String) :
    (generate_external_id k c d).length = 24 := by
  show ((hexdigest (sha256 _)).take 24).length = 24
  rw [List.length_take, hexdigest_length, sha256_length]
  decide

/-- **C1** (confirmed): `generate_external_id` returns exactly the first 24
lowercase hexadecimal characters of the SHA-256 digest of the UTF-8
encoding of `"{key}_{emission_type}_{date}"`; it is a pure total Lean
function, so determinism and absence of failure conditions are structural
(the last conjunct records the two-calls-equal reading literally). -/
theorem generate_external_id_spec (key emission_type date : String) :
    generate_external_id key emission_type date =
      ⟨(hexdigest (sha256 (utf8Encode (key ++ "_" ++ emission_type ++ "_" ++ date)))).take 24⟩ ∧
    (generate_external_id key emission_type date).length = 24 ∧
    (generate_external_id key emission_type date).data.all isLowerHexChar = true ∧
    generate_external_id key emission_type date =
      generate_external_id key emission_type date := by
  refine ⟨rfl, generate_external_id_length .., ?_, rfl⟩
  apply List.all_eq_true.2
  intro c hc
  exact hexdigest_hex _ c (List.take_subset _ _ hc)

/-! ## C10: date construction is total -/

/-- **C10** (confirmed): `create_date_string` never takes its error branch
on string inputs (the body's `str`/`strip`/`zfill`/format operations are
total), and it returns the stripped year joined by `-` with month and day
stripped and zero-padded to width 2; consequently the row-skipping error
path guarded by it in `process_emissions_data` is unreachable. -/
theorem create_date_string_total (year month day : String) :
    create_date_string year month day =
      .ok (pyStrip year ++ "-" ++ pyZfill 2 (pyStrip month) ++ "-" ++
        pyZfill 2 (pyStrip day)) ∧
    ∃ s, create_date_string year month day = Except.ok s :=
  ⟨rfl, _, rfl⟩

/-! ## C5, C6: batch dispatch -/

theorem process_batch_success {α : Type} (n t : Nat) (b : α) (out : HttpOutcome) :
    (process_batch n t b out).2.1 = outcomeSucceeds out := by
  cases out with
  | transportError m => rfl
  | response s body =>
    by_cases hc : 400 ≤ s ∧ s ≤ 599
    · cases body <;> simp [process_batch, create_batch_result, outcomeSucceeds, hc]
    · cases body <;> simp [process_batch, create_batch_result, outcomeSucceeds, hc]

/-- **C6** (amended, confirmed): a chunk submission is reported as a failure
exactly when the POST raised, returned status 400-599, or returned an
undecodable body (so a 1xx/3xx response with a decodable body is reported
as success, contrary to the claim's "every non-2xx" wording); every chunk
is tallied, so no chunk failure aborts the round, and the failed tally
counts exactly the failing sink outcomes. -/
theorem chunk_failure_taxonomy {α : Type} (batches : List α)
    (sink : Nat → α → HttpOutcome) :
    (dispatchRound batches sink).length = batches.length ∧
    (dispatchRound batches sink).map (fun r => r.2.1) =
      ((List.range batches.length).zip batches).map
        (fun p => outcomeSucceeds (sink (p.1 + 1) p.2)) ∧
    failedCount (dispatchRound batches sink) =
      ((List.range batches.length).zip batches).countP
        (fun p => !outcomeSucceeds (sink (p.1 + 1) p.2)) ∧
    completedCount (dispatchRound batches sink) =
      ((List.range batches.length).zip batches).countP
        (fun p => outcomeSucceeds (sink (p.1 + 1) p.2)) := by
  refine ⟨?_, ?_, ?_, ?_⟩
  · simp [dispatchRound]
  · simp only [dispatchRound, List.map_map]
    exact List.map_congr_left fun p _ => process_batch_success ..
  · simp only [dispatchRound, failedCount, List.countP_map]
    exact List.countP_congr fun p _ => by
      simp [Function.comp, process_batch_success]
  · simp only [dispatchRound, completedCount, List.countP_map]
    exact List.countP_congr fun p _ => by
      simp [Function.comp, process_batch_success]

/-- **C6** (counterexample): a response with the non-2xx status 300 and a
decodable JSON body is reported as a successful chunk, not a failure. -/
theorem non2xx_reported_success :
    statusIs2xx 300 = false ∧
    (process_batch 1 1 ([] : List Node) (.response 300 (some .null))).2.1 = true :=
  ⟨rfl, rfl⟩

/-- **C5** (confirmed): with three batches where the second sink call
raises and the others return 200 with a decodable body, the round tallies
`completed = 2`, `failed = 1`, and all three batches are still submitted
and resolved (in particular batches 1 and 3). -/
theorem dispatch_partial_failure {α : Type} (b1 b2 b3 : α)
    (sink : Nat → α → HttpOutcome) (j1 j3 : PyJson) (em : String)
    (h1 : sink 1 b1 = .response 200 (some j1))
    (h2 : sink 2 b2 = .transportError em)
    (h3 : sink 3 b3 = .response 200 (some j3)) :
    completedCount (dispatchRound [b1, b2, b3] sink) = 2 ∧
    failedCount (dispatchRound [b1, b2, b3] sink) = 1 ∧
    (dispatchRound [b1, b2, b3] sink).map (fun r => r.1) = [1, 2, 3] ∧
    (dispatchRound [b1, b2, b3] sink).map (fun r => r.2.1) = [true, false, true] := by
  have e : dispatchRound [b1, b2, b3] sink =
      [process_batch 1 3 b1 (sink 1 b1), process_batch 2 3 b2 (sink 2 b2),
       process_batch 3 3 b3 (sink 3 b3)] := rfl
  rw [e, h1, h2, h3]
  exact ⟨rfl, rfl, rfl, rfl⟩

/-- Witness for C5 at a concrete failing sink. -/
theorem dispatch_partial_failure_witness :
    sinkW 1 [] = .response 200 (some .null) ∧
    sinkW 2 [] = .transportError "boom" ∧
    sinkW 3 [] = .response 200 (some .null) ∧
    completedCount (dispatchRound [[], [], []] sinkW) = 2 ∧
    failedCount (dispatchRound [[], [], []] sinkW) = 1 :=
  ⟨rfl, rfl, rfl,
   (dispatch_partial_failure [] [] [] sinkW .null .null "boom" rfl rfl rfl).1,
   (dispatch_partial_failure [] [] [] sinkW .null .null "boom" rfl rfl rfl).2.1⟩

/-! ## C4: replay classification -/

/-- **C4** (counterexample): `docC4` matches none of the claim's shapes
(its second element has none of the required keys), yet with no explicit
type the tool classifies it as relationships and posts it instead of
exiting with code 1. -/
theorem detect_type_first_element_only :
    claimRelArrayShape docC4 = false ∧
    claimNodesListShape docC4 = false ∧
    claimNodeDictShape docC4 = false ∧
    claimNodeArrayShape docC4 = false ∧
    mainDispatch none docC4 = .postRels docC4 :=
  ⟨rfl, rfl, rfl, rfl, rfl⟩

/-- **C4** (amended, confirmed): classification looks only at a dict's keys
or at the FIRST element of an array. A nonempty array whose first element
is a dict with `source`, `target` and `type` (and not also node-shaped) is
classified as relationships; a dict with a `nodes` list, a dict with
`external_id` and `type`, and a nonempty array whose first element has
`external_id`, `type` and `properties` are classified as nodes; and
whenever the detector yields no classification, the tool posts nothing and
exits with code 1. -/
theorem detect_type_spec :
    (∀ k1 rest, hasKey k1 "source" = true → hasKey k1 "target" = true →
      hasKey k1 "type" = true →
      (hasKey k1 "external_id" && hasKey k1 "properties") = false →
      detect_type (.arr (.obj k1 :: rest)) = some .relationships) ∧
    (∀ kvs l, alookup kvs "nodes" = some (.arr l) →
      detect_type (.obj kvs) = some .nodes) ∧
    (∀ kvs, hasKey kvs "external_id" = true → hasKey kvs "type" = true →
      detect_type (.obj kvs) = some .nodes) ∧
    (∀ k1 rest, hasKey k1 "external_id" = true → hasKey k1 "type" = true →
      hasKey k1 "properties" = true →
      detect_type (.arr (.obj k1 :: rest)) = some .nodes) ∧
    (∀ d, detect_type d = none → mainDispatch none d = .exitWith 1) := by
  refine ⟨?_, ?_, ?_, ?_, ?_⟩
  · intro k1 rest hs ht hty hep
    rcases Bool.and_eq_false_iff.1 hep with he | hp
    · simp [detect_type, hs, ht, hty, he]
    · simp [detect_type, hs, ht, hty, hp]
  · intro kvs l h
    simp [detect_type, h]
  · intro kvs he ht
    by_cases hn : (match alookup kvs "nodes" with | some (.arr _) => true | _ => false) = true
    · simp [detect_type, hn]
    · simp [detect_type, hn, he, ht]
  · intro k1 rest he ht hp
    simp [detect_type, he, ht, hp]
  · intro d h
    simp [mainDispatch, h]

/-- Witness for C4, one concrete document per classified shape and one
unclassifiable scalar. -/
theorem detect_type_spec_witness :
    detect_type (.arr [.obj objRel]) = some .relationships ∧
    detect_type (.obj [("nodes", .arr [])]) = some .nodes ∧
    detect_type (.obj [("external_id", .str "e"), ("type", .str "T")]) = some .nodes ∧
    detect_type (.arr [.obj objNode]) = some .nodes ∧
    mainDispatch none (.num 3) = .exitWith 1 :=
  ⟨detect_type_spec.1 objRel [] rfl rfl rfl rfl,
   detect_type_spec.2.1 [("nodes", .arr [])] [] rfl,
   detect_type_spec.2.2.1 [("external_id", .str "e"), ("type", .str "T")] rfl rfl,
   detect_type_spec.2.2.2.1 objNode [] rfl rfl rfl,
   detect_type_spec.2.2.2.2 (.num 3) rfl⟩

/-! ## C8: the end-to-end row -/

/-- **C8** (counterexample): the spec's input row has only 20 columns, so
`read_csv_data` skips it (rows need at least 21 columns) and the pipeline
produces no nodes at all — in particular no Reading node. -/
theorem spec_row_dropped :
    specRow20.length = 20 ∧
    read_csv_data [hdrRow, specRow20] = [] ∧
    buildNodes "emissions_data.csv" "T0" [hdrRow, specRow20] = [] ∧
    buildRels "emissions_data.csv" "T0" [hdrRow, specRow20] = [] :=
  ⟨rfl, rfl, rfl, rfl⟩

/-- **C8** (amended, confirmed): once the row is padded to the required 21
columns, the pipeline emits exactly one Reading node (the only
`Emission`-labelled node): external id `derive("W1", "Flaring",
"2024-03-15")`, type `Flaring`, labels `["Emission"]`, and a volume
property `100.0` carrying unit metadata `bbl` (tagged with the spreadsheet
name and `verified_time`). -/
theorem spec_row_reading_node (sn vt : String) :
    ((buildNodes sn vt [hdrRow, specRow21]).filter fun n =>
        n.labels == ["Emission"]) =
      [{ external_id := generate_external_id "W1" "Flaring" "2024-03-15",
         type := "Flaring", labels := ["Emission"],
         properties := [⟨"date", .val (.str "2024-03-15"), none⟩,
                        ⟨"volume", .val (.float (.finite (mkRat 100 1))),
                         some (metaFor sn vt "bbl")⟩] }] := rfl

/-! ## C7: field nulling and entry skipping -/

/-- **C7** (confirmed): a (well, type, row) entry is skipped exactly when
both the parsed volume and the parsed mass are null (missing, empty, or
non-empty but unparsable — the parse failure nulls only that field), and a
surviving entry stores exactly the parsed volume and mass fields. -/
theorem entry_skip_iff_both_null (sn vt wk ty : String) (cm : ColMap) (row : RowRec) :
    (makeDateEntry sn vt wk ty cm row = none ↔
      fieldValue row.row_data cm.volume = none ∧
      fieldValue row.row_data cm.mass = none) ∧
    (makeDateEntry sn vt wk ty cm row).map entryVolume =
      (if fieldValue row.row_data cm.volume = none ∧
          fieldValue row.row_data cm.mass = none
       then none else some (fieldValue row.row_data cm.volume)) ∧
    (makeDateEntry sn vt wk ty cm row).map entryMass =
      (if fieldValue row.row_data cm.volume = none ∧
          fieldValue row.row_data cm.mass = none
       then none else some (fieldValue row.row_data cm.mass)) := by
  unfold makeDateEntry
  simp only [create_date_string]
  rcases hv : fieldValue row.row_data cm.volume with _ | v <;>
    rcases hm : fieldValue row.row_data cm.mass with _ | m <;>
    rcases hvu : cellOpt row.row_data cm.volume_uom with _ | vu <;>
    rcases hmu : cellOpt row.row_data cm.mass_uom with _ | mu <;>
    simp only [hv, hm, hvu, hmu] <;>
    simp [entryVolume, entryMass, alookup] <;>
    split_ifs <;>
    simp [alookup]

/-- Witness for C7: `rowC7`'s Flaring volume cell is non-empty and
unparsable, so that field is nulled while the entry survives with its
parsed mass. -/
theorem entry_skip_iff_both_null_witness :
    (makeDateEntry "f.csv" "T0" "W1" "Flaring" ⟨5, 6, 7, 8⟩ rowC7).map entryVolume =
      some none ∧
    (makeDateEntry "f.csv" "T0" "W1" "Flaring" ⟨5, 6, 7, 8⟩ rowC7).map entryMass =
      some (some (.finite (mkRat 50 1))) :=
  ⟨((entry_skip_iff_both_null "f.csv" "T0" "W1" "Flaring" ⟨5, 6, 7, 8⟩ rowC7).2.1).trans
      (by decide),
   ((entry_skip_iff_both_null "f.csv" "T0" "W1" "Flaring" ⟨5, 6, 7, 8⟩ rowC7).2.2).trans
      (by decide)⟩

/-! ## C9: external-id provenance -/

/-- **C9** (counterexample): the Well node of the padded spec row carries
the raw business key `"W1"` as its external id, and no
`generate_external_id` output can equal it (they all have 24 characters). -/
theorem well_node_raw_key :
    ((buildNodes "emissions_data.csv" "T0" [hdrRow, specRow21]).filter fun n =>
        n.type == "Well").map (fun n => n.external_id) = ["W1"] ∧
    ∀ k c d, ("W1" == generate_external_id k c d) = false := by
  refine ⟨rfl, fun k c d => ?_⟩
  apply beq_eq_false_iff_ne.2
  intro h
  have hl := congrArg String.length h
  rw [generate_external_id_length] at hl
  exact absurd hl (by decide)

theorem makeDateEntry_some {sn vt wk ty : String} {cm : ColMap} {row : RowRec}
    {e : Entry} (h : makeDateEntry sn vt wk ty cm row = some e) :
    e.well_key = wk ∧ e.emission_type = ty := by
  unfold makeDateEntry at h
  simp only [create_date_string] at h
  split at h
  · injection h with h
    subst h
    exact ⟨rfl, rfl⟩
  · exact absurd h (by simp)

theorem dateEntries_mem {sn vt : String} {wells : List (String × List RowRec)}
    {e : Entry} (h : e ∈ dateEntries sn vt wells) :
    e.well_key ∈ wells.map Prod.fst ∧ e.emission_type ∈ emission_types := by
  simp only [dateEntries, List.mem_flatMap] at h
  obtain ⟨w, hw, h⟩ := h
  obtain ⟨ty, hty, h⟩ := h
  rcases hcm : get_emission_type_columns ty with _ | cm
  · rw [hcm] at h; simp at h
  · rw [hcm] at h
    simp only [List.mem_filterMap] at h
    obtain ⟨row, _, hrow⟩ := h
    obtain ⟨hwk, hty'⟩ := makeDateEntry_some hrow
    exact ⟨hwk ▸ List.mem_map_of_mem Prod.fst hw, hty' ▸ hty⟩

theorem sortedEntriesOf_mem {sn vt : String} {csv : List (List String)} {e : Entry}
    (h : e ∈ sortedEntriesOf sn vt csv) :
    e ∈ dateEntries sn vt (pipelineWells csv) :=
  (sortEntries_perm _).mem_iff.1 h

theorem emissionTypeIdsOf_mem {wells : List (String × List RowRec)}
    {p : (String × String) × String} (h : p ∈ emissionTypeIdsOf wells) :
    p.2 = emissionTypeId p.1.1 p.1.2 := by
  simp only [emissionTypeIdsOf, List.mem_flatMap, List.mem_map] at h
  obtain ⟨w, _, ty, _, rfl⟩ := h
  rfl

/-- **C9** (amended, confirmed): every Emissions, EmissionType and Reading
node carries a hash-derived external id produced by `generate_external_id`
from its business keys, but each Well node's external id is the raw well
key itself, not a hash. -/
theorem node_id_provenance (sn vt : String) (csv : List (List String)) :
    (∀ n ∈ buildNodes sn vt csv,
      n.type = "Well" ∨ ∃ k c d, n.external_id = generate_external_id k c d) ∧
    ((buildNodes sn vt csv).filter fun n => n.type == "Well").map
        (fun n => n.external_id) = (pipelineWells csv).map Prod.fst := by
  constructor
  · intro n hn
    simp only [buildNodes, List.mem_append] at hn
    rcases hn with ((hn | hn) | hn) | hn
    · simp only [wellNodes, List.mem_map] at hn
      obtain ⟨w, _, rfl⟩ := hn
      exact Or.inl rfl
    · simp only [emissionsNodes, List.mem_map] at hn
      obtain ⟨w, _, rfl⟩ := hn
      exact Or.inr ⟨w.1, "emissions", "", rfl⟩
    · simp only [typeNodes, List.mem_map] at hn
      obtain ⟨p, hp, rfl⟩ := hn
      exact Or.inr ⟨p.1.1, "emission_type_" ++ p.1.2, "", emissionTypeIdsOf_mem hp⟩
    · simp only [readingNodes, List.mem_map] at hn
      obtain ⟨e, _, rfl⟩ := hn
      exact Or.inr ⟨e.well_key, e.emission_type, e.date, rfl⟩
  · simp only [buildNodes, List.filter_append, List.map_append]
    have hA : (wellNodes (pipelineWells csv)).filter (fun n => n.type == "Well") =
        wellNodes (pipelineWells csv) := by
      apply List.filter_eq_self.2
      intro n hn
      simp only [wellNodes, List.mem_map] at hn
      obtain ⟨w, _, rfl⟩ := hn
      rfl
    have hB : (emissionsNodes (pipelineWells csv)).filter
        (fun n => n.type == "Well") = [] := by
      apply List.filter_eq_nil_iff.2
      intro n hn
      simp only [emissionsNodes, List.mem_map] at hn
      obtain ⟨w, _, rfl⟩ := hn
      simp
    have hC : (typeNodes (pipelineWells csv)).filter
        (fun n => n.type == "Well") = [] := by
      apply List.filter_eq_nil_iff.2
      intro n hn
      simp only [typeNodes, List.mem_map] at hn
      obtain ⟨p, _, rfl⟩ := hn
      simp
    have hD : (readingNodes (sortedEntriesOf sn vt csv)).filter
        (fun n => n.type == "Well") = [] := by
      apply List.filter_eq_nil_iff.2
      intro n hn
      simp only [readingNodes, List.mem_map] at hn
      obtain ⟨e, he, rfl⟩ := hn
      have hty := (dateEntries_mem (sortedEntriesOf_mem he)).2
      simp only [emission_types, List.mem_cons, List.not_mem_nil, or_false] at hty
      rcases hty with h | h | h | h <;> simp [h]
    rw [hA, hB, hC, hD]
    simp only [wellNodes, List.map_map, List.map_nil, List.nil_append,
      List.append_nil]
    rfl

/-- Witness for C9 at the padded spec row: the pipeline's first node is the
Well node with raw id `"W1"`; the disjunction holds through its type. -/
theorem node_id_provenance_witness :
    nodeW1.type = "Well" ∨
      ∃ k c d, nodeW1.external_id = generate_external_id k c d :=
  (node_id_provenance "emissions_data.csv" "T0" [hdrRow, specRow21]).1 nodeW1
    (by
      apply List.mem_append_left
      apply List.mem_append_left
      apply List.mem_append_left
      show nodeW1 ∈ wellNodes (pipelineWells [hdrRow, specRow21])
      rw [show wellNodes (pipelineWells [hdrRow, specRow21]) = [nodeW1] from rfl]
      exact List.mem_singleton_self _)

/-! ## C3: per-well node and edge counts -/

theorem groupUpd_keys (acc : List (String × List RowRec)) (k : String) (r : RowRec) :
    (groupUpd acc k r).map Prod.fst =
      if k ∈ acc.map Prod.fst then acc.map Prod.fst
      else acc.map Prod.fst ++ [k] := by
  induction acc with
  | nil => simp [groupUpd]
  | cons p t ih =>
    obtain ⟨k', rs⟩ := p
    by_cases h : k' = k
    · subst h
      simp [groupUpd]
    · simp only [groupUpd, if_neg h, List.map_cons, ih]
      by_cases hm : k ∈ t.map Prod.fst
      · rw [if_pos hm, if_pos (List.mem_cons_of_mem _ hm)]
      · rw [if_neg hm, if_neg ?_, List.cons_append]
        intro hc
        rcases List.mem_cons.1 hc with hc | hc
        · exact h hc.symm
        · exact hm hc

theorem group_keys_nodup_aux (data : List RowRec) :
    ∀ acc : List (String × List RowRec), (acc.map Prod.fst).Nodup →
      ((data.foldl
          (fun acc r => if r.well_key = "" then acc else groupUpd acc r.well_key r)
          acc).map Prod.fst).Nodup := by
  induction data with
  | nil => intro acc h; simpa using h
  | cons r t ih =>
    intro acc h
    simp only [List.foldl_cons]
    apply ih
    by_cases hw : r.well_key = ""
    · simpa [hw] using h
    · rw [if_neg hw, groupUpd_keys]
      by_cases hm : r.well_key ∈ acc.map Prod.fst
      · simpa [hm] using h
      · rw [if_neg hm]
        simp only [List.nodup_append, List.nodup_cons, List.not_mem_nil,
          not_false_iff, List.nodup_nil, and_true, true_and]
        exact ⟨h, by simpa using hm⟩

theorem group_keys_mem_aux (data : List RowRec) :
    ∀ (acc : List (String × List RowRec)) (k : String),
      k ∈ ((data.foldl
          (fun acc r => if r.well_key = "" then acc else groupUpd acc r.well_key r)
          acc).map Prod.fst) ↔
        k ∈ acc.map Prod.fst ∨ (k ≠ "" ∧ k ∈ data.map RowRec.well_key) := by
  induction data with
  | nil => intro acc k; simp
  | cons r t ih =>
    intro acc k
    simp only [List.foldl_cons, List.map_cons, List.mem_cons]
    rw [ih]
    by_cases hw : r.well_key = ""
    · rw [if_pos hw]
      constructor
      · rintro (h | h)
        · exact Or.inl h
        · exact Or.inr ⟨h.1, Or.inr h.2⟩
      · rintro (h | ⟨hne, h | h⟩)
        · exact Or.inl h
        · exact absurd (h ▸ hw) hne
        · exact Or.inr ⟨hne, h⟩
    · rw [if_neg hw, groupUpd_keys]
      by_cases hm : r.well_key ∈ acc.map Prod.fst
      · rw [if_pos hm]
        constructor
        · rintro (h | h)
          · exact Or.inl h
          · exact Or.inr ⟨h.1, Or.inr h.2⟩
        · rintro (h | ⟨hne, h | h⟩)
          · exact Or.inl h
          · exact Or.inl (h ▸ hm)
          · exact Or.inr ⟨hne, h⟩
      · rw [if_neg hm]
        simp only [List.mem_append, List.mem_cons, List.not_mem_nil, or_false]
        constructor
        · rintro ((h | h) | h)
          · exact Or.inl h
          · exact Or.inr ⟨h ▸ hw, Or.inl h⟩
          · exact Or.inr ⟨h.1, Or.inr h.2⟩
        · rintro (h | ⟨hne, h | h⟩)
          · exact Or.inl (Or.inl h)
          · exact Or.inl (Or.inr h)
          · exact Or.inr ⟨hne, h⟩

theorem emissionTypeIdsOf_length (wells : List (String × List RowRec)) :
    (emissionTypeIdsOf wells).length = 4 * wells.length := by
  induction wells with
  | nil => rfl
  | cons w t ih =>
    simp only [emissionTypeIdsOf, List.flatMap_cons, List.length_append,
      List.length_map, List.length_cons] at ih ⊢
    simp only [emission_types, List.length_cons, List.length_nil]
    simp only [emission_types, List.length_cons, List.length_nil] at ih
    omega

theorem chainRels_types (ets : List ((String × String) × String)) :
    ∀ (cg : List ((String × String) × String)) (es : List Entry) (r : GraphRel),
      r ∈ chainRels ets cg es → r.type = "HAS_DATA" ∨ r.type = "NEXT_DATE" := by
  intro cg es
  induction es generalizing cg with
  | nil => intro r h; simp [chainRels] at h
  | cons e rest ih =>
    intro r h
    unfold chainRels at h
    rcases hcg : alookup cg (e.well_key, e.emission_type) with _ | prev <;>
      rw [hcg] at h <;>
      rcases List.mem_cons.1 h with h | h
    · exact Or.inl (congrArg GraphRel.type h)
    · exact ih _ r h
    · exact Or.inr (congrArg GraphRel.type h)
    · exact ih _ r h

theorem readingNodes_countP_eq_zero (sn vt : String) (csv : List (List String))
    (s : String) (hs : s ∈ ["Well", "Emissions", "EmissionType"]) :
    ((readingNodes (sortedEntriesOf sn vt csv)).countP fun n => n.type == s) = 0 := by
  apply List.countP_eq_zero.2
  intro n hn
  simp only [readingNodes, List.mem_map] at hn
  obtain ⟨e, he, rfl⟩ := hn
  have hty := (dateEntries_mem (sortedEntriesOf_mem he)).2
  simp only [emission_types, List.mem_cons, List.not_mem_nil, or_false] at hty
  simp only [List.mem_cons, List.not_mem_nil, or_false] at hs
  rcases hty with h | h | h | h <;> rcases hs with rfl | rfl | rfl <;> simp [h]

/-- **C3** (confirmed): the builder emits exactly one Emissions node and one
HAS_EMISSIONS edge per distinct (nonempty) well key, and exactly
4 × (number of distinct well keys) EmissionType nodes and HAS_TYPE edges —
one per fixed type per well, regardless of how many types have zero
readings; the grouped well keys are exactly the distinct nonempty well-key
values of the kept CSV rows. -/
theorem per_well_node_counts (sn vt : String) (csv : List (List String)) :
    ((buildNodes sn vt csv).countP fun n => n.type == "EmissionType") =
      4 * (pipelineWells csv).length ∧
    ((buildNodes sn vt csv).countP fun n => n.type == "Emissions") =
      (pipelineWells csv).length ∧
    ((buildRels sn vt csv).countP fun r => r.type == "HAS_EMISSIONS") =
      (pipelineWells csv).length ∧
    ((buildRels sn vt csv).countP fun r => r.type == "HAS_TYPE") =
      4 * (pipelineWells csv).length ∧
    ((pipelineWells csv).map Prod.fst).Nodup ∧
    (∀ k, k ∈ (pipelineWells csv).map Prod.fst ↔
      k ≠ "" ∧ k ∈ (read_csv_data csv).map RowRec.well_key) := by
  refine ⟨?_, ?_, ?_, ?_, ?_, ?_⟩
  · simp only [buildNodes, List.countP_append]
    have hA : ((wellNodes (pipelineWells csv)).countP
        fun n => n.type == "EmissionType") = 0 := by
      simp [wellNodes, List.countP_map, Function.comp]
    have hB : ((emissionsNodes (pipelineWells csv)).countP
        fun n => n.type == "EmissionType") = 0 := by
      simp [emissionsNodes, List.countP_map, Function.comp]
    have hC : ((typeNodes (pipelineWells csv)).countP
        fun n => n.type == "EmissionType") =
        (emissionTypeIdsOf (pipelineWells csv)).length := by
      have h1 : ((typeNodes (pipelineWells csv)).countP
          fun n => n.type == "EmissionType") =
          (typeNodes (pipelineWells csv)).length :=
        List.countP_eq_length.2 (by
          intro n hn
          simp only [typeNodes, List.mem_map] at hn
          obtain ⟨p, _, rfl⟩ := hn
          rfl)
      rw [h1]
      simp [typeNodes]
    rw [hA, hB, hC, readingNodes_countP_eq_zero sn vt csv _ (by simp),
      emissionTypeIdsOf_length]
    omega
  · simp only [buildNodes, List.countP_append]
    have hA : ((wellNodes (pipelineWells csv)).countP
        fun n => n.type == "Emissions") = 0 := by
      simp [wellNodes, List.countP_map, Function.comp]
    have hB : ((emissionsNodes (pipelineWells csv)).countP
        fun n => n.type == "Emissions") = (pipelineWells csv).length := by
      rw [List.countP_eq_length.2 ?_]
      · simp [emissionsNodes]
      · intro n hn
        simp only [emissionsNodes, List.mem_map] at hn
        obtain ⟨w, _, rfl⟩ := hn
        rfl
    have hC : ((typeNodes (pipelineWells csv)).countP
        fun n => n.type == "Emissions") = 0 := by
      apply List.countP_eq_zero.2
      intro n hn
      simp only [typeNodes, List.mem_map] at hn
      obtain ⟨p, _, rfl⟩ := hn
      simp
    rw [hA, hB, hC, readingNodes_countP_eq_zero sn vt csv _ (by simp)]
    omega
  · simp only [buildRels, List.countP_append]
    have hA : ((hasEmissionsRels (pipelineWells csv)).countP
        fun r => r.type == "HAS_EMISSIONS") = (pipelineWells csv).length := by
      rw [List.countP_eq_length.2 ?_]
      · simp [hasEmissionsRels]
      · intro r hr
        simp only [hasEmissionsRels, List.mem_map] at hr
        obtain ⟨w, _, rfl⟩ := hr
        rfl
    have hB : ((hasTypeRels (pipelineWells csv)).countP
        fun r => r.type == "HAS_EMISSIONS") = 0 := by
      apply List.countP_eq_zero.2
      intro r hr
      simp only [hasTypeRels, List.mem_map] at hr
      obtain ⟨p, _, rfl⟩ := hr
      simp
    have hD : ((chainRels (emissionTypeIdsOf (pipelineWells csv)) []
        (sortedEntriesOf sn vt csv)).countP fun r => r.type == "HAS_EMISSIONS") = 0 := by
      apply List.countP_eq_zero.2
      intro r hr
      rcases chainRels_types _ _ _ r hr with h | h <;> simp [h]
    rw [hA, hB, hD]
    omega
  · simp only [buildRels, List.countP_append]
    have hA : ((hasEmissionsRels (pipelineWells csv)).countP
        fun r => r.type == "HAS_TYPE") = 0 := by
      apply List.countP_eq_zero.2
      intro r hr
      simp only [hasEmissionsRels, List.mem_map] at hr
      obtain ⟨w, _, rfl⟩ := hr
      simp
    have hB : ((hasTypeRels (pipelineWells csv)).countP
        fun r => r.type == "HAS_TYPE") =
        (emissionTypeIdsOf (pipelineWells csv)).length := by
      have h1 : ((hasTypeRels (pipelineWells csv)).countP
          fun r => r.type == "HAS_TYPE") =
          (hasTypeRels (pipelineWells csv)).length :=
        List.countP_eq_length.2 (by
          intro r hr
          simp only [hasTypeRels, List.mem_map] at hr
          obtain ⟨p, _, rfl⟩ := hr
          rfl)
      rw [h1]
      simp [hasTypeRels]
    have hD : ((chainRels (emissionTypeIdsOf (pipelineWells csv)) []
        (sortedEntriesOf sn vt csv)).countP fun r => r.type == "HAS_TYPE") = 0 := by
      apply List.countP_eq_zero.2
      intro r hr
      rcases chainRels_types _ _ _ r hr with h | h <;> simp [h]
    rw [hA, hB, hD, emissionTypeIdsOf_length]
    omega
  · exact group_keys_nodup_aux (read_csv_data csv) [] (by simp)
  · intro k
    have := group_keys_mem_aux (read_csv_data csv) [] k
    simpa using this

/-! ## C2: the per-(well, type) reading chain -/

theorem alookup_aset_self {α β : Type} [DecidableEq α] (m : List (α × β)) (k : α) (v : β) :
    alookup (aset m k v) k = some v := by
  induction m with
  | nil => simp [aset, alookup]
  | cons p t ih =>
    obtain ⟨k0, v0⟩ := p
    by_cases h : k0 = k
    · subst h
      simp [aset, alookup]
    · simp [aset, alookup, h, ih]

theorem alookup_aset_ne {α β : Type} [DecidableEq α] (m : List (α × β)) (k k' : α)
    (v : β) (h : k' ≠ k) : alookup (aset m k v) k' = alookup m k' := by
  induction m with
  | nil => simp [aset, alookup, Ne.symm h]
  | cons p t ih =>
    obtain ⟨k0, v0⟩ := p
    by_cases h0 : k0 = k
    · subst h0
      simp [aset, alookup, Ne.symm h]
    · simp [aset, alookup, h0, ih]

theorem alookup_append {α β : Type} [DecidableEq α] (l1 l2 : List (α × β)) (k : α) :
    alookup (l1 ++ l2) k =
      match alookup l1 k with
      | some v => some v
      | none => alookup l2 k := by
  induction l1 with
  | nil => simp [alookup]
  | cons p t ih =>
    obtain ⟨k0, v0⟩ := p
    by_cases h : k0 = k <;> simp [alookup, h, ih]

theorem chainRels_eq_ann (ets : List ((String × String) × String)) :
    ∀ (cg : List ((String × String) × String)) (es : List Entry),
      chainRels ets cg es = (chainRelsAnn ets cg es).map Prod.snd := by
  intro cg es
  induction es generalizing cg with
  | nil => rfl
  | cons e rest ih =>
    unfold chainRels chainRelsAnn
    rcases hcg : alookup cg (e.well_key, e.emission_type) with _ | prev <;>
      simp [hcg, ih]

theorem chainRelsAnn_cons_none (ets cg : List ((String × String) × String))
    (e : Entry) (rest : List Entry)
    (hcg : alookup cg (e.well_key, e.emission_type) = none) :
    chainRelsAnn ets cg (e :: rest) =
      ((e.well_key, e.emission_type),
        ⟨"EmissionType", (alookup ets (e.well_key, e.emission_type)).getD "",
         e.emission_type, entryId e, "HAS_DATA"⟩) ::
        chainRelsAnn ets (aset cg (e.well_key, e.emission_type) (entryId e)) rest := by
  conv_lhs => unfold chainRelsAnn
  rw [hcg]

theorem chainRelsAnn_cons_some (ets cg : List ((String × String) × String))
    (e : Entry) (rest : List Entry) (prev : String)
    (hcg : alookup cg (e.well_key, e.emission_type) = some prev) :
    chainRelsAnn ets cg (e :: rest) =
      ((e.well_key, e.emission_type),
        ⟨e.emission_type, prev, e.emission_type, entryId e, "NEXT_DATE"⟩) ::
        chainRelsAnn ets (aset cg (e.well_key, e.emission_type) (entryId e)) rest := by
  conv_lhs => unfold chainRelsAnn
  rw [hcg]

theorem chainKRels_nil (etId : String) (st : Option String) :
    chainKRels etId st [] = [] := by
  cases st <;> rfl

theorem chainRelsAnn_filter (ets : List ((String × String) × String))
    (k : String × String) :
    ∀ (cg : List ((String × String) × String)) (es : List Entry),
      ((chainRelsAnn ets cg es).filter fun p => p.1 == k).map Prod.snd =
        chainKRels ((alookup ets k).getD "") (alookup cg k)
          (es.filter fun e => (e.well_key, e.emission_type) == k) := by
  intro cg es
  induction es generalizing cg with
  | nil => simp [chainRelsAnn, chainKRels_nil]
  | cons e rest ih =>
    by_cases hk : (e.well_key, e.emission_type) = k
    · rcases hcg : alookup cg (e.well_key, e.emission_type) with _ | prev
      · rw [chainRelsAnn_cons_none ets cg e rest hcg,
          List.filter_cons_of_pos (by simp [hk]), List.map_cons,
          List.filter_cons_of_pos (by simp [hk]), ih, ← hk, hcg, alookup_aset_self]
        rfl
      · rw [chainRelsAnn_cons_some ets cg e rest prev hcg,
          List.filter_cons_of_pos (by simp [hk]), List.map_cons,
          List.filter_cons_of_pos (by simp [hk]), ih, ← hk, hcg, alookup_aset_self]
        rfl
    · have hk2 : ((e.well_key, e.emission_type) == k) = false := by
        simpa using hk
      rcases hcg : alookup cg (e.well_key, e.emission_type) with _ | prev
      · rw [chainRelsAnn_cons_none ets cg e rest hcg,
          List.filter_cons_of_neg (by simp [hk2]),
          List.filter_cons_of_neg (by simp [hk2]), ih,
          alookup_aset_ne _ _ _ _ (fun hc => hk hc.symm)]
      · rw [chainRelsAnn_cons_some ets cg e rest prev hcg,
          List.filter_cons_of_neg (by simp [hk2]),
          List.filter_cons_of_neg (by simp [hk2]), ih,
          alookup_aset_ne _ _ _ _ (fun hc => hk hc.symm)]

theorem alookup_block_none (w1 wk ty : String) (h : wk ≠ w1) :
    alookup (emission_types.map fun t => ((w1, t), emissionTypeId w1 t)) (wk, ty) =
      none := by
  have hne : ∀ t : String, ¬((w1, t) = (wk, ty)) := by
    intro t hET
    exact h (congrArg Prod.fst hET).symm
  simp [emission_types, alookup, hne]

theorem alookup_block_mem (wk ty : String) (hty : ty ∈ emission_types)
    (rest : List ((String × String) × String)) :
    alookup ((emission_types.map fun t => ((wk, t), emissionTypeId wk t)) ++ rest)
      (wk, ty) = some (emissionTypeId wk ty) := by
  simp only [emission_types, List.mem_cons, List.not_mem_nil, or_false] at hty
  rcases hty with rfl | rfl | rfl | rfl <;> simp [emission_types, alookup]

theorem alookup_emissionTypeIdsOf (wells : List (String × List RowRec))
    (wk ty : String) (hwk : wk ∈ wells.map Prod.fst) (hty : ty ∈ emission_types) :
    alookup (emissionTypeIdsOf wells) (wk, ty) = some (emissionTypeId wk ty) := by
  induction wells with
  | nil => simp at hwk
  | cons w t ih =>
    simp only [List.map_cons, List.mem_cons] at hwk
    simp only [emissionTypeIdsOf, List.flatMap_cons]
    by_cases heq : wk = w.1
    · rw [← heq]
      exact alookup_block_mem wk ty hty _
    · rw [alookup_append, alookup_block_none w.1 wk ty heq]
      rcases hwk with hwk | hwk
      · exact absurd hwk heq
      · exact ih hwk

theorem groupEntries_key {sn vt : String} {csv : List (List String)}
    {wk ty : String} :
    ∀ e ∈ groupEntries sn vt csv wk ty, e.well_key = wk ∧ e.emission_type = ty := by
  intro e he
  have h2 := (List.mem_filter.1 he).2
  have heq : (e.well_key, e.emission_type) = (wk, ty) := by
    exact beq_iff_eq.mp h2
  exact ⟨congrArg Prod.fst heq, congrArg Prod.snd heq⟩

theorem groupEntries_sub {sn vt : String} {csv : List (List String)}
    {wk ty : String} :
    ∀ e ∈ groupEntries sn vt csv wk ty, e ∈ sortedEntriesOf sn vt csv := by
  intro e he
  exact (List.mem_filter.1 he).1

theorem groupEntries_pairwise (sn vt : String) (csv : List (List String))
    (wk ty : String)
    (hd : ((groupEntries sn vt csv wk ty).map Entry.date).Nodup) :
    List.Pairwise (fun a b => pyLt b.date a.date) (groupEntries sn vt csv wk ty) := by
  have hs : List.Pairwise entryDescLe (groupEntries sn vt csv wk ty) :=
    List.Pairwise.sublist (List.filter_sublist _) (sortEntries_sorted _)
  have hne : List.Pairwise (fun a b : Entry => a.date ≠ b.date)
      (groupEntries sn vt csv wk ty) := List.pairwise_map.1 hd
  refine List.Pairwise.imp_of_mem ?_ (hs.and hne)
  intro a b ha hb hab
  obtain ⟨hle, hneq⟩ := hab
  obtain ⟨ha1, ha2⟩ := groupEntries_key a ha
  obtain ⟨hb1, hb2⟩ := groupEntries_key b hb
  unfold entryDescLe tripleLe entryKey at hle
  rw [ha1, ha2, hb1, hb2] at hle
  rcases hle with h | ⟨_, h | ⟨_, h | h⟩⟩
  · exact absurd h (pyLt_self wk)
  · exact absurd h (pyLt_self ty)
  · exact h
  · exact absurd h.symm hneq

theorem chainKRels_some_eq_nextDateChain (etId : String) :
    ∀ (l : List Entry) (prev : Entry),
      chainKRels etId (some (entryId prev)) l = nextDateChain prev l := by
  intro l
  induction l with
  | nil => intro prev; rfl
  | cons e t ih =>
    intro prev
    simp only [chainKRels, nextDateChain]
    rw [ih e]

theorem nextDateChain_countP_hasData :
    ∀ (l : List Entry) (prev : Entry),
      (nextDateChain prev l).countP (fun r => r.type == "HAS_DATA") = 0 := by
  intro l
  induction l with
  | nil => intro prev; rfl
  | cons e t ih =>
    intro prev
    simp only [nextDateChain]
    rw [List.countP_cons_of_neg _ _ (by simp)]
    exact ih e

theorem nextDateChain_countP_nextDate :
    ∀ (l : List Entry) (prev : Entry),
      (nextDateChain prev l).countP (fun r => r.type == "NEXT_DATE") = l.length := by
  intro l
  induction l with
  | nil => intro prev; rfl
  | cons e t ih =>
    intro prev
    simp only [nextDateChain, List.length_cons]
    rw [List.countP_cons_of_pos _ _ (by simp)]
    rw [ih e]

/-- **C2** (amended, confirmed): for a (well, type) group whose n ≥ 2
surviving entries have pairwise-distinct dates, the builder emits for that
group exactly one `HAS_DATA` relationship — from the group's EmissionType
node to the first (most recent) entry — and exactly n − 1 `NEXT_DATE`
relationships linking each entry to the next one, whose dates are strictly
decreasing (a single chain from most-recent to least-recent with no
branches or cycles); the final conjunct ties the annotated decomposition
to the relationship list the builder actually emits. Without the
distinct-dates proviso the property fails (see the duplicate-date
counterexample). -/
theorem reading_chain_structure (sn vt : String) (csv : List (List String))
    (wk ty : String)
    (hn : 2 ≤ (groupEntries sn vt csv wk ty).length)
    (hd : ((groupEntries sn vt csv wk ty).map Entry.date).Nodup) :
    ∃ h t, groupEntries sn vt csv wk ty = h :: t ∧
      groupChainRels sn vt csv wk ty =
        ⟨"EmissionType", emissionTypeId wk ty, h.emission_type, entryId h,
          "HAS_DATA"⟩ :: nextDateChain h t ∧
      (groupChainRels sn vt csv wk ty).countP (fun r => r.type == "HAS_DATA") = 1 ∧
      (groupChainRels sn vt csv wk ty).countP (fun r => r.type == "NEXT_DATE") =
        (groupEntries sn vt csv wk ty).length - 1 ∧
      List.Pairwise (fun a b => pyLt b.date a.date) (groupEntries sn vt csv wk ty) ∧
      buildRels sn vt csv =
        hasEmissionsRels (pipelineWells csv) ++ hasTypeRels (pipelineWells csv) ++
          (chainRelsAnn (emissionTypeIdsOf (pipelineWells csv)) []
            (sortedEntriesOf sn vt csv)).map Prod.snd := by
  obtain ⟨h, t, hg⟩ : ∃ h t, groupEntries sn vt csv wk ty = h :: t := by
    rcases hgg : groupEntries sn vt csv wk ty with _ | ⟨h, t⟩
    · rw [hgg] at hn
      simp at hn
    · exact ⟨h, t, rfl⟩
  have hmem : h ∈ groupEntries sn vt csv wk ty := hg ▸ List.mem_cons_self h t
  obtain ⟨hk1, hk2⟩ := groupEntries_key h hmem
  have hde : h ∈ dateEntries sn vt (pipelineWells csv) :=
    sortedEntriesOf_mem (groupEntries_sub h hmem)
  obtain ⟨hwkm, htym⟩ := dateEntries_mem hde
  have hets : alookup (emissionTypeIdsOf (pipelineWells csv)) (wk, ty) =
      some (emissionTypeId wk ty) :=
    alookup_emissionTypeIdsOf _ wk ty (hk1 ▸ hwkm) (hk2 ▸ htym)
  have hrels : groupChainRels sn vt csv wk ty =
      ⟨"EmissionType", emissionTypeId wk ty, h.emission_type, entryId h,
        "HAS_DATA"⟩ :: nextDateChain h t := by
    have hfil := chainRelsAnn_filter (emissionTypeIdsOf (pipelineWells csv))
      (wk, ty) [] (sortedEntriesOf sn vt csv)
    rw [hets] at hfil
    unfold groupChainRels
    rw [hfil]
    show chainKRels (emissionTypeId wk ty) none (groupEntries sn vt csv wk ty) = _
    rw [hg]
    simp only [chainKRels]
    rw [chainKRels_some_eq_nextDateChain]
  refine ⟨h, t, hg, hrels, ?_, ?_, groupEntries_pairwise sn vt csv wk ty hd, ?_⟩
  · rw [hrels, List.countP_cons_of_pos _ _ (by simp),
      nextDateChain_countP_hasData]
  · rw [hrels, List.countP_cons_of_neg _ _ (by simp),
      nextDateChain_countP_nextDate, hg]
    simp
  · unfold buildRels
    rw [chainRels_eq_ann]

/-- **C2** (counterexample): two identical CSV rows give the (W1, Flaring)
group n = 2 surviving entries with the same date; the builder then emits a
`NEXT_DATE` relationship whose source and target are the same Reading id —
a self-loop rather than a strictly date-descending two-reading chain. -/
theorem duplicate_date_self_loop :
    (groupEntries "f.csv" "T0" dupCsv "W1" "Flaring").length = 2 ∧
    ((buildRels "f.csv" "T0" dupCsv).filter fun r => r.type == "NEXT_DATE") =
      [⟨"Flaring", generate_external_id "W1" "Flaring" "2024-03-15",
        "Flaring", generate_external_id "W1" "Flaring" "2024-03-15",
        "NEXT_DATE"⟩] :=
  ⟨rfl, rfl⟩

/-- Witness for C2 at a well with two distinct-date Flaring readings. -/
theorem reading_chain_structure_witness :
    2 ≤ (groupEntries "f.csv" "T0" twoDateCsv "W1" "Flaring").length ∧
    ((groupEntries "f.csv" "T0" twoDateCsv "W1" "Flaring").map Entry.date).Nodup ∧
    (groupChainRels "f.csv" "T0" twoDateCsv "W1" "Flaring").countP
      (fun r => r.type == "HAS_DATA") = 1 := by
  refine ⟨by decide, by decide, ?_⟩
  obtain ⟨h, t, _, _, hc, _⟩ :=
    reading_chain_structure "f.csv" "T0" twoDateCsv "W1" "Flaring"
      (by decide) (by decide)
  exact hc
